import Mathlib

/-!
Verification of the silverc lexical-analysis front end.

The definitions below are a shallow embedding of the lexer found in
src/lexer/mod.rs (plus the Span type from src/span/mod.rs and the custom
rule stub from src/lexer/rules.rs).  The Rust `Cursor` wraps
`chars().enumerate().peekable()`; here it is modelled as the pair of the
remaining character list and the absolute index of its first character
(`pos`), which reproduces the enumerate indices exactly because the Rust
iterator is consumed strictly left to right.  `Lexer::next` becomes the
state-transition function `nextToken`, and the iterator is materialised
by running `nextToken` with a fuel bound that exceeds the number of
tokens any input of the given length can produce.
-/

namespace Silverc

/-- TokenKind from src/lexer/mod.rs lines 21-165.  The enum in the source
has no `Comment` constructor (the test suite references one, but the type
does not define it). -/
inductive TokenKind where
  | Identifier (text : String)
  | IntegerLiteral (text : String)
  | StringLiteral (text : String)
  | NewLine
  | NL
  | Indent
  | Dedent
  | LParen
  | RParen
  | LBracket
  | RBracket
  | LBrace
  | RBrace
  | Colon
  | Semi
  | Dot
  | Comma
  | Plus
  | Minus
  | Star
  | Slash
  | Percent
  | Caret
  | Amper
  | Pipe
  | Tilde
  | Equals
  | Less
  | Greater
  | Not
  | At
  | RArrow
  | EqualsEquals
  | NotEquals
  | LessEquals
  | GreaterEquals
  | LShift
  | RShift
  | StarStar
  | PlusEquals
  | MinusEquals
  | StarEquals
  | SlashEquals
  | PercentEquals
  | AmperEquals
  | PipeEquals
  | CaretEquals
  | LShiftEquals
  | RShiftEquals
  | StarStarEquals
  | Unknown

/-- Span from src/span/mod.rs: start index, end index and a cached length. -/
structure Span where
  start_idx : Nat
  end_idx : Nat
  len : Nat

/-- Span::new computes `len` as `end_idx - start_idx` (usize subtraction;
the lexer only ever calls it with `end_idx >= start_idx`, where Nat
subtraction agrees). -/
def Span.new (start_idx end_idx : Nat) : Span :=
  { start_idx := start_idx, end_idx := end_idx, len := end_idx - start_idx }

/-- Token from src/lexer/mod.rs lines 15-18. -/
structure Token where
  kind : TokenKind
  span : Span

/-- is_ident_start from src/lexer/mod.rs line 487: underscore or ASCII letter. -/
def is_ident_start (c : Char) : Bool :=
  c = '_' || c.isAlpha

/-- is_ident_body from src/lexer/mod.rs line 491: underscore or ASCII alphanumeric. -/
def is_ident_body (c : Char) : Bool :=
  c = '_' || c.isAlphanum

/-- is_digit from src/lexer/mod.rs line 495. -/
def is_digit (c : Char) : Bool :=
  '0' ≤ c && c ≤ '9'

/-- rule_string_ident from src/lexer/rules.rs: the only registered custom
rule; it always declines (and `Lexer::next` never consults the rule list
anyway). -/
def rule_string_ident (_c : Char) : Option TokenKind :=
  none

/-- The mutable state of `Lexer` (src/lexer/mod.rs lines 216-235) together
with its cursor.  `input` and `pos` model the enumerated character
iterator; `stack` is `indentation_stack` with the top at the list's end,
exactly like the Rust `Vec`. -/
structure LexState where
  input : List Char
  pos : Nat
  queue : List Token
  stack : List Nat
  isLineStart : Bool
  lineStartIdx : Nat

/-- Result of the scanner dispatch (the big `match char` in `Lexer::next`,
src/lexer/mod.rs lines 304-462): the token kind, the enumerate index of
the last consumed character, the remaining input, and whether the branch
was the `'\n'` one (which sets `is_line_start`). -/
structure ScanResult where
  kind : TokenKind
  endIdx : Nat
  rest : List Char
  newLineStart : Bool

/-- The scanner dispatch of `Lexer::next` (src/lexer/mod.rs lines
304-462), transcribed branch for branch in the source's match order.
`c` is the character returned by `cursor.source.next()`, `startIdx` its
enumerate index, `input` the characters after it. -/
def scanKind (c : Char) (startIdx : Nat) (input : List Char) : ScanResult :=
  if is_ident_start c then
    let chars := input.takeWhile is_ident_body
    { kind := .Identifier (String.mk (c :: chars)),
      endIdx := startIdx + chars.length,
      rest := input.dropWhile is_ident_body, newLineStart := false }
  else if is_digit c then
    let chars := input.takeWhile is_digit
    { kind := .IntegerLiteral (String.mk (c :: chars)),
      endIdx := startIdx + chars.length,
      rest := input.dropWhile is_digit, newLineStart := false }
  else if c == '+' then
    match input with
    | '=' :: rest => ⟨.PlusEquals, startIdx + 1, rest, false⟩
    | _ => ⟨.Plus, startIdx, input, false⟩
  else if c == '-' then
    match input with
    | '=' :: rest => ⟨.MinusEquals, startIdx + 1, rest, false⟩
    | '>' :: rest => ⟨.RArrow, startIdx + 1, rest, false⟩
    | _ => ⟨.Minus, startIdx, input, false⟩
  else if c == '*' then
    match input with
    | '=' :: rest => ⟨.StarEquals, startIdx + 1, rest, false⟩
    | '*' :: rest =>
      match rest with
      | '=' :: rest2 => ⟨.StarStarEquals, startIdx + 2, rest2, false⟩
      | _ => ⟨.StarStar, startIdx + 1, rest, false⟩
    | _ => ⟨.Star, startIdx, input, false⟩
  else if c == '/' then
    match input with
    | '=' :: rest => ⟨.SlashEquals, startIdx + 1, rest, false⟩
    | _ => ⟨.Slash, startIdx, input, false⟩
  else if c == '(' then ⟨.LParen, startIdx, input, false⟩
  else if c == ')' then ⟨.RParen, startIdx, input, false⟩
  else if c == '[' then ⟨.LBracket, startIdx, input, false⟩
  else if c == ']' then ⟨.RBracket, startIdx, input, false⟩
  else if c == '\x7b' then ⟨.LBrace, startIdx, input, false⟩
  else if c == '\x7d' then ⟨.RBrace, startIdx, input, false⟩
  else if c == ':' then ⟨.Colon, startIdx, input, false⟩
  else if c == ';' then ⟨.Semi, startIdx, input, false⟩
  else if c == '.' then ⟨.Dot, startIdx, input, false⟩
  else if c == ',' then ⟨.Comma, startIdx, input, false⟩
  else if c == '%' then
    match input with
    | '=' :: rest => ⟨.PercentEquals, startIdx + 1, rest, false⟩
    | _ => ⟨.Percent, startIdx, input, false⟩
  else if c == '^' then
    match input with
    | '=' :: rest => ⟨.CaretEquals, startIdx + 1, rest, false⟩
    | _ => ⟨.Caret, startIdx, input, false⟩
  else if c == '&' then
    match input with
    | '=' :: rest => ⟨.AmperEquals, startIdx + 1, rest, false⟩
    | _ => ⟨.Amper, startIdx, input, false⟩
  else if c == '|' then
    match input with
    | '=' :: rest => ⟨.PipeEquals, startIdx + 1, rest, false⟩
    | _ => ⟨.Pipe, startIdx, input, false⟩
  else if c == '~' then ⟨.Tilde, startIdx, input, false⟩
  else if c == '=' then
    match input with
    | '=' :: rest => ⟨.EqualsEquals, startIdx + 1, rest, false⟩
    | _ => ⟨.Equals, startIdx, input, false⟩
  else if c == '<' then
    match input with
    | '=' :: rest => ⟨.LessEquals, startIdx + 1, rest, false⟩
    | '<' :: rest =>
      match rest with
      | '=' :: rest2 => ⟨.LShiftEquals, startIdx + 2, rest2, false⟩
      | _ => ⟨.LShift, startIdx + 1, rest, false⟩
    | _ => ⟨.Less, startIdx, input, false⟩
  else if c == '>' then
    match input with
    | '=' :: rest => ⟨.GreaterEquals, startIdx + 1, rest, false⟩
    | '>' :: rest =>
      match rest with
      | '=' :: rest2 => ⟨.RShiftEquals, startIdx + 2, rest2, false⟩
      | _ => ⟨.RShift, startIdx + 1, rest, false⟩
    | _ => ⟨.Greater, startIdx, input, false⟩
  else if c == '!' then
    match input with
    | '=' :: rest => ⟨.NotEquals, startIdx + 1, rest, false⟩
    | _ => ⟨.Not, startIdx, input, false⟩
  else if c == '@' then ⟨.At, startIdx, input, false⟩
  else if c == '\n' then ⟨.NewLine, startIdx, input, true⟩
  else ⟨.Unknown, startIdx, input, false⟩

/-- Lines 299-483 of `Lexer::next`: clear `is_line_start`, pull the next
character (returning `none` at end of input, the `?`), run the scanner
dispatch, and — when the cursor is then exhausted — append the closing
synthetic `NewLine` and `stack.len() - 1` `Dedent` tokens to the queue
before returning the scanned token. -/
def scanPart (st : LexState) : Option (Token × LexState) :=
  match st.input with
  | [] => none
  | c :: rest =>
    let startIdx := st.pos
    let r := scanKind c startIdx rest
    let queue2 :=
      if r.rest.isEmpty then
        st.queue ++
          (⟨.NewLine, Span.new (r.endIdx + 1) (r.endIdx + 2)⟩ ::
            List.replicate (st.stack.length - 1)
              (⟨.Dedent, Span.new (r.endIdx + 2) (r.endIdx + 2)⟩ : Token))
      else st.queue
    some (⟨r.kind, Span.new startIdx (r.endIdx + 1)⟩,
      { st with
        input := r.rest,
        pos := r.endIdx + 1,
        queue := queue2,
        isLineStart := r.newLineStart,
        lineStartIdx := if r.newLineStart then startIdx + 1 else st.lineStartIdx })

/-- Count of spaces consumed by `Cursor::skip_whitespace` (src/lexer/mod.rs
lines 199-213): the length of the run of ' ' characters at the cursor. -/
def wsCount (st : LexState) : Nat :=
  (st.input.takeWhile (fun c => c == ' ')).length

/-- State after `Cursor::skip_whitespace`: the run of ' ' characters is
consumed and the offset advances by its length. -/
def skipWs (st : LexState) : LexState :=
  { st with
    input := st.input.dropWhile (fun c => c == ' '),
    pos := st.pos + (st.input.takeWhile (fun c => c == ' ')).length }

/-- The `Dedent` tokens enqueued by the dedent branch of `Lexer::next`
(src/lexer/mod.rs lines 270-289): one per stack entry dropped by the
filter keeping entries `<= width`, all with a zero-length span at the
line's start offset. -/
def dedentsFor (stack : List Nat) (w : Nat) (lineStartIdx : Nat) : List Token :=
  List.replicate (stack.length - (stack.filter (fun e => decide (e ≤ w))).length)
    ⟨.Dedent, Span.new lineStartIdx lineStartIdx⟩

/-- Transcription of `Lexer::next` (src/lexer/mod.rs lines 253-484):
deliver a queued token if any; otherwise skip spaces
(`skip_whitespace`), run the line-start indentation logic, and fall
through to the scanner.  The source binds the skipped state and the
measured width to locals; here they are the pure `skipWs` and `wsCount`
applied to the pre-skip state, which is the same thing because
`skip_whitespace` is the only mutation before the branch. -/
def nextToken (st : LexState) : Option (Token × LexState) :=
  match st.queue with
  | tok :: qrest => some (tok, { st with queue := qrest })
  | [] =>
    if st.isLineStart then
      match (skipWs st).stack.getLast? with
      | none => none
      | some top =>
        if wsCount st > top then
          some (⟨.Indent, Span.new st.lineStartIdx st.lineStartIdx⟩,
            { skipWs st with
              isLineStart := false,
              stack := (skipWs st).stack ++ [wsCount st] })
        else if wsCount st < top then
          match dedentsFor (skipWs st).stack (wsCount st) st.lineStartIdx with
          | tok :: qrest =>
            some (tok,
              { skipWs st with
                stack := (skipWs st).stack.filter (fun e => decide (e ≤ wsCount st)),
                queue := qrest })
          | [] =>
            scanPart
              { skipWs st with
                stack := (skipWs st).stack.filter (fun e => decide (e ≤ wsCount st)) }
        else scanPart (skipWs st)
    else scanPart (skipWs st)

/-- Transcription of `Lexer::new` (src/lexer/mod.rs lines 238-248): fresh cursor, empty
queue, stack seeded to `[0]`, at a line start whose offset is 0. -/
def initLexer (cs : List Char) : LexState :=
  { input := cs, pos := 0, queue := [], stack := [0],
    isLineStart := true, lineStartIdx := 0 }

/-- Materialise the iterator: collect tokens until `nextToken` returns
`none`, bounded by fuel. -/
def lexAux (fuel : Nat) (st : LexState) : List Token :=
  match fuel with
  | 0 => []
  | Nat.succ f =>
    match nextToken st with
    | none => []
    | some (t, st2) => t :: lexAux f st2

/-- The complete token stream for a character list.  `4 * n + 8` fuel is
ample: every call consumes input, shrinks the stack, or pops the queue,
and total queue insertions are bounded by the input length. -/
def lexChars (cs : List Char) : List Token :=
  lexAux (4 * cs.length + 8) (initLexer cs)

/-- The complete token stream for a string, as `Lexer::new(s).collect()`. -/
def lexTokens (s : String) : List Token :=
  lexChars s.data

/-- Does a token kind carry a string literal? -/
def TokenKind.isStrLit : TokenKind → Bool
  | .StringLiteral _ => true
  | _ => false

/-- Is this kind the structural `Indent`? -/
def TokenKind.isIndent : TokenKind → Bool
  | .Indent => true
  | _ => false

/-- Is this kind the structural `Dedent`? -/
def TokenKind.isDedent : TokenKind → Bool
  | .Dedent => true
  | _ => false

/-- Is this kind a `NewLine`? -/
def TokenKind.isNewLine : TokenKind → Bool
  | .NewLine => true
  | _ => false

/-- Number of tokens in a stream whose kind satisfies the test. -/
def countTok (p : TokenKind → Bool) (ts : List Token) : Nat :=
  (ts.filter (fun t => p t.kind)).length

/-- The operator/punctuation characters that begin a dedicated branch of
the scanner dispatch. -/
def isOpPunct (c : Char) : Bool :=
  c == '+' || c == '-' || c == '*' || c == '/' || c == '(' || c == ')' ||
  c == '[' || c == ']' || c == '\x7b' || c == '\x7d' || c == ':' || c == ';' ||
  c == '.' || c == ',' || c == '%' || c == '^' || c == '&' || c == '|' ||
  c == '~' || c == '=' || c == '<' || c == '>' || c == '!' || c == '@'

/-- Is a token stream free of string literals? -/
def noStrLit (ts : List Token) : Bool :=
  ts.all (fun t => !t.kind.isStrLit)

theorem scanKind_not_strLit (c : Char) (i : Nat) (inp : List Char) :
    (scanKind c i inp).kind.isStrLit = false := by
  simp only [scanKind]
  by_cases h1 : is_ident_start c = true
  · rw [if_pos h1]; rfl
  rw [if_neg h1]
  by_cases h2 : is_digit c = true
  · rw [if_pos h2]; rfl
  rw [if_neg h2]
  by_cases h3 : (c == '+') = true
  · rw [if_pos h3]; (repeat' split) <;> rfl
  rw [if_neg h3]
  by_cases h4 : (c == '-') = true
  · rw [if_pos h4]; (repeat' split) <;> rfl
  rw [if_neg h4]
  by_cases h5 : (c == '*') = true
  · rw [if_pos h5]; (repeat' split) <;> rfl
  rw [if_neg h5]
  by_cases h6 : (c == '/') = true
  · rw [if_pos h6]; (repeat' split) <;> rfl
  rw [if_neg h6]
  by_cases h7 : (c == '(') = true
  · rw [if_pos h7]; rfl
  rw [if_neg h7]
  by_cases h8 : (c == ')') = true
  · rw [if_pos h8]; rfl
  rw [if_neg h8]
  by_cases h9 : (c == '[') = true
  · rw [if_pos h9]; rfl
  rw [if_neg h9]
  by_cases h10 : (c == ']') = true
  · rw [if_pos h10]; rfl
  rw [if_neg h10]
  by_cases h11 : (c == '\x7b') = true
  · rw [if_pos h11]; rfl
  rw [if_neg h11]
  by_cases h12 : (c == '\x7d') = true
  · rw [if_pos h12]; rfl
  rw [if_neg h12]
  by_cases h13 : (c == ':') = true
  · rw [if_pos h13]; rfl
  rw [if_neg h13]
  by_cases h14 : (c == ';') = true
  · rw [if_pos h14]; rfl
  rw [if_neg h14]
  by_cases h15 : (c == '.') = true
  · rw [if_pos h15]; rfl
  rw [if_neg h15]
  by_cases h16 : (c == ',') = true
  · rw [if_pos h16]; rfl
  rw [if_neg h16]
  by_cases h17 : (c == '%') = true
  · rw [if_pos h17]; (repeat' split) <;> rfl
  rw [if_neg h17]
  by_cases h18 : (c == '^') = true
  · rw [if_pos h18]; (repeat' split) <;> rfl
  rw [if_neg h18]
  by_cases h19 : (c == '&') = true
  · rw [if_pos h19]; (repeat' split) <;> rfl
  rw [if_neg h19]
  by_cases h20 : (c == '|') = true
  · rw [if_pos h20]; (repeat' split) <;> rfl
  rw [if_neg h20]
  by_cases h21 : (c == '~') = true
  · rw [if_pos h21]; rfl
  rw [if_neg h21]
  by_cases h22 : (c == '=') = true
  · rw [if_pos h22]; (repeat' split) <;> rfl
  rw [if_neg h22]
  by_cases h23 : (c == '<') = true
  · rw [if_pos h23]; (repeat' split) <;> rfl
  rw [if_neg h23]
  by_cases h24 : (c == '>') = true
  · rw [if_pos h24]; (repeat' split) <;> rfl
  rw [if_neg h24]
  by_cases h25 : (c == '!') = true
  · rw [if_pos h25]; (repeat' split) <;> rfl
  rw [if_neg h25]
  by_cases h26 : (c == '@') = true
  · rw [if_pos h26]; rfl
  rw [if_neg h26]
  by_cases h27 : (c == '\n') = true
  · rw [if_pos h27]; rfl
  rw [if_neg h27]
  rfl

theorem scanPart_noStrLit (st : LexState) (t : Token) (st2 : LexState)
    (h : noStrLit st.queue = true) (hs : scanPart st = some (t, st2)) :
    t.kind.isStrLit = false ∧ noStrLit st2.queue = true := by
  unfold scanPart at hs
  cases hinp : st.input with
  | nil => rw [hinp] at hs; exact absurd hs (by simp)
  | cons c rest =>
    rw [hinp] at hs
    simp only [Option.some.injEq, Prod.mk.injEq] at hs
    obtain ⟨ht, hst⟩ := hs
    constructor
    · rw [← ht]
      exact scanKind_not_strLit c st.pos rest
    · rw [← hst]
      simp only [noStrLit, List.all_eq_true] at h ⊢
      intro tok htok
      split at htok
      · rcases List.mem_append.mp htok with hmem | hmem
        · exact h tok hmem
        · rcases List.mem_cons.mp hmem with hmem2 | hmem2
          · rw [hmem2]; rfl
          · rw [List.eq_of_mem_replicate hmem2]; rfl
      · exact h tok htok

theorem dedent_of_mem_dedentsFor (x : Token) (s : List Nat) (w i : Nat)
    (h : x ∈ dedentsFor s w i) : x = ⟨.Dedent, Span.new i i⟩ := by
  simp only [dedentsFor] at h
  exact List.eq_of_mem_replicate h

theorem nextToken_noStrLit (st : LexState) (t : Token) (st2 : LexState)
    (h : noStrLit st.queue = true) (hn : nextToken st = some (t, st2)) :
    t.kind.isStrLit = false ∧ noStrLit st2.queue = true := by
  unfold nextToken at hn
  split at hn
  · rename_i tok qrest hq
    simp only [Option.some.injEq, Prod.mk.injEq] at hn
    obtain ⟨ht, hst⟩ := hn
    rw [hq] at h
    simp only [noStrLit, List.all_cons, Bool.and_eq_true, Bool.not_eq_true'] at h
    constructor
    · rw [← ht]; exact h.1
    · rw [← hst]
      simp only [noStrLit]
      exact h.2
  · rename_i hq
    by_cases hLS : st.isLineStart = true
    · rw [if_pos hLS] at hn
      split at hn
      · exact absurd hn (by simp)
      · rename_i top hLast
        by_cases hgt : wsCount st > top
        · rw [if_pos hgt] at hn
          simp only [Option.some.injEq, Prod.mk.injEq] at hn
          obtain ⟨ht, hst⟩ := hn
          refine ⟨by rw [← ht]; rfl, ?_⟩
          rw [← hst]
          simp [noStrLit, skipWs, hq]
        · rw [if_neg hgt] at hn
          by_cases hlt : wsCount st < top
          · rw [if_pos hlt] at hn
            cases hrep : dedentsFor (skipWs st).stack (wsCount st) st.lineStartIdx with
            | nil =>
              rw [hrep] at hn
              exact scanPart_noStrLit _ _ _ (by simp [noStrLit, skipWs, hq]) hn
            | cons tok qrest =>
              rw [hrep] at hn
              have hn2 : some (tok,
                  { skipWs st with
                    stack := (skipWs st).stack.filter (fun e => decide (e ≤ wsCount st)),
                    queue := qrest }) = some (t, st2) := hn
              simp only [Option.some.injEq, Prod.mk.injEq] at hn2
              obtain ⟨ht, hst⟩ := hn2
              constructor
              · have htok : tok ∈ dedentsFor (skipWs st).stack (wsCount st) st.lineStartIdx := by
                  rw [hrep]; exact List.mem_cons_self _ _
                rw [← ht, dedent_of_mem_dedentsFor _ _ _ _ htok]
                rfl
              · rw [← hst]
                simp only [noStrLit, List.all_eq_true]
                intro x hx
                have hxmem : x ∈ dedentsFor (skipWs st).stack (wsCount st) st.lineStartIdx := by
                  rw [hrep]; exact List.mem_cons_of_mem _ hx
                rw [dedent_of_mem_dedentsFor _ _ _ _ hxmem]
                rfl
          · rw [if_neg hlt] at hn
            exact scanPart_noStrLit _ _ _ (by simp [noStrLit, skipWs, hq]) hn
    · rw [if_neg hLS] at hn
      exact scanPart_noStrLit _ _ _ (by simp [noStrLit, skipWs, hq]) hn

theorem lexAux_noStrLit (fuel : Nat) :
    ∀ st : LexState, noStrLit st.queue = true → noStrLit (lexAux fuel st) = true := by
  induction fuel with
  | zero => intro st _; rfl
  | succ f ih =>
    intro st h
    cases hn : nextToken st with
    | none => simp [lexAux, hn, noStrLit]
    | some p =>
      obtain ⟨t, st2⟩ := p
      have h2 := nextToken_noStrLit st t st2 h hn
      have hrest := ih st2 h2.2
      simp only [lexAux, hn, noStrLit, List.all_cons, Bool.and_eq_true, Bool.not_eq_true']
      exact ⟨h2.1, by simpa [noStrLit] using hrest⟩

/-- Claim C9: no input ever produces a `StringLiteral` token.  The only
registered custom rule (`rule_string_ident`) returns `None`, and
`Lexer::next` never consults the rule list at all, so no scanner branch
and no queue insertion can introduce `StringLiteral`. -/
theorem no_string_literal_ever (s : String) :
    noStrLit (lexTokens s) = true :=
  lexAux_noStrLit _ (initLexer s.data) rfl

/-- Claim C1: the claim says an inconsistent dedent (width 2 against the
stack [0, 4] at line offset 8) surfaces a recoverable lexical error
carrying that width and offset.  The code has no error channel at all
(`Iterator::Item` is a bare `Token`); it silently pops every level above
the width, emits one `Dedent`, and continues lexing with stack top 0,
never 2.  This theorem records that silent behaviour at the failing
input. -/
theorem inconsistent_dedent_is_silent :
    lexTokens "a\n    b\n  c" =
      [⟨.Identifier "a", Span.new 0 1⟩,
       ⟨.NewLine, Span.new 1 2⟩,
       ⟨.Indent, Span.new 2 2⟩,
       ⟨.Identifier "b", Span.new 6 7⟩,
       ⟨.NewLine, Span.new 7 8⟩,
       ⟨.Dedent, Span.new 8 8⟩,
       ⟨.Identifier "c", Span.new 10 11⟩,
       ⟨.NewLine, Span.new 11 12⟩] :=
  rfl

/-- Claim C2: the claim says a consistent dedent to width 2 (stack
[0, 2, 4]) pops exactly the entries above 2, emits exactly one `Dedent`
per popped entry, and afterwards the stack top is 2 with no further
`Dedent` before the line's content.  In the code `is_line_start` is never
cleared in the dedent branch, so the call after the queue drains re-runs
the indentation logic with a measured width of 0 and emits a spurious
second `Dedent`, leaving the stack at [0] before `Identifier d`.  This
theorem records the stream at the failing input: two `Dedent` tokens
appear before `d` where the claim allows exactly one. -/
theorem dedent_not_cleared_line_start :
    lexTokens "a\n  b\n    c\n  d" =
      [⟨.Identifier "a", Span.new 0 1⟩,
       ⟨.NewLine, Span.new 1 2⟩,
       ⟨.Indent, Span.new 2 2⟩,
       ⟨.Identifier "b", Span.new 4 5⟩,
       ⟨.NewLine, Span.new 5 6⟩,
       ⟨.Indent, Span.new 6 6⟩,
       ⟨.Identifier "c", Span.new 10 11⟩,
       ⟨.NewLine, Span.new 11 12⟩,
       ⟨.Dedent, Span.new 12 12⟩,
       ⟨.Dedent, Span.new 12 12⟩,
       ⟨.Identifier "d", Span.new 14 15⟩,
       ⟨.NewLine, Span.new 15 16⟩] :=
  rfl

/-- Claim C3 counterexample: the claim says the synthetic end-of-input
`NewLine` is enqueued only if the source did not already end with a
newline.  For the input "a\n", which ends with a newline, the stream
would then contain exactly one `NewLine` token; the code enqueues the
synthetic `NewLine` unconditionally, and the stream contains two. -/
theorem trailing_newline_still_doubled :
    lexTokens "a\n" =
      [⟨.Identifier "a", Span.new 0 1⟩,
       ⟨.NewLine, Span.new 1 2⟩,
       ⟨.NewLine, Span.new 2 3⟩] ∧
    countTok TokenKind.isNewLine (lexTokens "a\n") = 2 :=
  ⟨rfl, rfl⟩

/-- Claim C4: the claim says `Indent` and `Dedent` counts agree over the
whole stream for any whitespace-regular input.  For "a\n  b\n" — an
ordinary newline-terminated program with one consistent indent — the
end-of-input closing enqueues the matching `Dedent` but never pops the
indentation stack, and `is_line_start` is still true after the final real
newline, so the dedent logic runs once more and emits a second `Dedent`:
one `Indent`, two `Dedent`s. -/
theorem indent_dedent_counts_differ :
    countTok TokenKind.isIndent (lexTokens "a\n  b\n") = 1 ∧
    countTok TokenKind.isDedent (lexTokens "a\n  b\n") = 2 :=
  ⟨rfl, rfl⟩

/-- Claim C5: the claim says '#' starts a comment consumed through the
next newline, yielding a `Comment` token.  The `TokenKind` enum in
src/lexer/mod.rs has no `Comment` constructor and the scanner dispatch
has no '#' branch, so '#' falls to the `Unknown` arm and the comment text
is then lexed as ordinary tokens; the repository's own test `comment`
expects `tk::Comment` and cannot even compile against this enum.  This
theorem records the behaviour at the failing input "# hi". -/
theorem hash_lexes_as_unknown :
    lexTokens "# hi" =
      [⟨.Unknown, Span.new 0 1⟩,
       ⟨.Identifier "hi", Span.new 2 4⟩,
       ⟨.NewLine, Span.new 4 5⟩] :=
  rfl

/-- Claim C6: for every multi-character operator family, the longest
valid spelling lexes to the single token kind of that spelling, never a
shorter operator kind followed by the remainder.  Each conjunct gives
the complete stream for one spelling fed in isolation. -/
theorem longest_match_operators :
    lexTokens "->" = [⟨.RArrow, Span.new 0 2⟩, ⟨.NewLine, Span.new 2 3⟩] ∧
    lexTokens "==" = [⟨.EqualsEquals, Span.new 0 2⟩, ⟨.NewLine, Span.new 2 3⟩] ∧
    lexTokens "!=" = [⟨.NotEquals, Span.new 0 2⟩, ⟨.NewLine, Span.new 2 3⟩] ∧
    lexTokens "<=" = [⟨.LessEquals, Span.new 0 2⟩, ⟨.NewLine, Span.new 2 3⟩] ∧
    lexTokens ">=" = [⟨.GreaterEquals, Span.new 0 2⟩, ⟨.NewLine, Span.new 2 3⟩] ∧
    lexTokens "<<" = [⟨.LShift, Span.new 0 2⟩, ⟨.NewLine, Span.new 2 3⟩] ∧
    lexTokens ">>" = [⟨.RShift, Span.new 0 2⟩, ⟨.NewLine, Span.new 2 3⟩] ∧
    lexTokens "**" = [⟨.StarStar, Span.new 0 2⟩, ⟨.NewLine, Span.new 2 3⟩] ∧
    lexTokens "+=" = [⟨.PlusEquals, Span.new 0 2⟩, ⟨.NewLine, Span.new 2 3⟩] ∧
    lexTokens "-=" = [⟨.MinusEquals, Span.new 0 2⟩, ⟨.NewLine, Span.new 2 3⟩] ∧
    lexTokens "*=" = [⟨.StarEquals, Span.new 0 2⟩, ⟨.NewLine, Span.new 2 3⟩] ∧
    lexTokens "/=" = [⟨.SlashEquals, Span.new 0 2⟩, ⟨.NewLine, Span.new 2 3⟩] ∧
    lexTokens "%=" = [⟨.PercentEquals, Span.new 0 2⟩, ⟨.NewLine, Span.new 2 3⟩] ∧
    lexTokens "&=" = [⟨.AmperEquals, Span.new 0 2⟩, ⟨.NewLine, Span.new 2 3⟩] ∧
    lexTokens "|=" = [⟨.PipeEquals, Span.new 0 2⟩, ⟨.NewLine, Span.new 2 3⟩] ∧
    lexTokens "^=" = [⟨.CaretEquals, Span.new 0 2⟩, ⟨.NewLine, Span.new 2 3⟩] ∧
    lexTokens "<<=" = [⟨.LShiftEquals, Span.new 0 3⟩, ⟨.NewLine, Span.new 3 4⟩] ∧
    lexTokens ">>=" = [⟨.RShiftEquals, Span.new 0 3⟩, ⟨.NewLine, Span.new 3 4⟩] ∧
    lexTokens "**=" = [⟨.StarStarEquals, Span.new 0 3⟩, ⟨.NewLine, Span.new 3 4⟩] :=
  ⟨rfl, rfl, rfl, rfl, rfl, rfl, rfl, rfl, rfl, rfl, rfl, rfl, rfl, rfl, rfl, rfl, rfl, rfl, rfl⟩

/-- Claim C7: for the input "let i = true" the spans (start, length) are
(0,3) (4,1) (6,1) (8,4) for the two identifiers, the equals sign and the
final identifier, followed by the closing `NewLine` starting at offset
12, and every emitted span satisfies `len = end_idx - start_idx`. -/
theorem span_exactness_let_i_true :
    lexTokens "let i = true" =
      [⟨.Identifier "let", Span.new 0 3⟩,
       ⟨.Identifier "i", Span.new 4 5⟩,
       ⟨.Equals, Span.new 6 7⟩,
       ⟨.Identifier "true", Span.new 8 12⟩,
       ⟨.NewLine, Span.new 12 13⟩] ∧
    (lexTokens "let i = true").all
      (fun t => decide (t.span.len = t.span.end_idx - t.span.start_idx)) = true :=
  ⟨rfl, rfl⟩

/-- Claim C10: for the empty input the token stream is empty — no
synthetic `NewLine`, no `Indent` or `Dedent` — and the very first pull
already reports end of stream. -/
theorem empty_input_empty_stream :
    lexTokens "" = [] ∧ nextToken (initLexer []) = none :=
  ⟨rfl, rfl⟩

/-- Claim C3 (amended): whenever a scanned token consumes the last
character of the input, the lexer unconditionally appends to the queue
exactly one synthetic `NewLine` (even when the token just scanned was
itself the source's final newline) followed by exactly
`stack.len() - 1` `Dedent` tokens. -/
theorem eof_closing_unconditional (st : LexState) (t : Token) (st2 : LexState)
    (h1 : scanPart st = some (t, st2)) (h2 : st2.input = []) :
    st2.queue = st.queue ++
      (⟨.NewLine, Span.new t.span.end_idx (t.span.end_idx + 1)⟩ ::
        List.replicate (st.stack.length - 1)
          (⟨.Dedent, Span.new (t.span.end_idx + 1) (t.span.end_idx + 1)⟩ : Token)) := by
  unfold scanPart at h1
  cases hinp : st.input with
  | nil => rw [hinp] at h1; exact absurd h1 (by simp)
  | cons c rest =>
    rw [hinp] at h1
    simp only [Option.some.injEq, Prod.mk.injEq] at h1
    obtain ⟨ht, hst⟩ := h1
    have h3 : (scanKind c st.pos rest).rest = [] := by rw [← hst] at h2; exact h2
    have h4 : (scanKind c st.pos rest).rest.isEmpty = true := by rw [h3]; rfl
    have hqueue : st2.queue =
        (if (scanKind c st.pos rest).rest.isEmpty then
          st.queue ++
            (⟨.NewLine, Span.new ((scanKind c st.pos rest).endIdx + 1)
                ((scanKind c st.pos rest).endIdx + 2)⟩ ::
              List.replicate (st.stack.length - 1)
                (⟨.Dedent, Span.new ((scanKind c st.pos rest).endIdx + 2)
                    ((scanKind c st.pos rest).endIdx + 2)⟩ : Token))
        else st.queue) := by rw [← hst]
    rw [hqueue, if_pos h4, ← ht]
    rfl

/-- Witness for the amended claim C3 at the concrete pre-scan state whose
input is the single identifier character 'a'. -/
theorem eof_closing_unconditional_witness :
    scanPart (⟨['a'], 0, [], [0], false, 0⟩ : LexState) =
        some ((⟨.Identifier "a", Span.new 0 1⟩ : Token),
          (⟨[], 1, [⟨.NewLine, Span.new 1 2⟩], [0], false, 0⟩ : LexState)) ∧
    (⟨[], 1, [⟨.NewLine, Span.new 1 2⟩], [0], false, 0⟩ : LexState).input = [] ∧
    (⟨[], 1, [⟨.NewLine, Span.new 1 2⟩], [0], false, 0⟩ : LexState).queue =
      (⟨['a'], 0, [], [0], false, 0⟩ : LexState).queue ++
        (⟨.NewLine, Span.new (⟨.Identifier "a", Span.new 0 1⟩ : Token).span.end_idx
            ((⟨.Identifier "a", Span.new 0 1⟩ : Token).span.end_idx + 1)⟩ ::
          List.replicate ((⟨['a'], 0, [], [0], false, 0⟩ : LexState).stack.length - 1)
            (⟨.Dedent, Span.new ((⟨.Identifier "a", Span.new 0 1⟩ : Token).span.end_idx + 1)
                ((⟨.Identifier "a", Span.new 0 1⟩ : Token).span.end_idx + 1)⟩ : Token)) :=
  ⟨rfl, rfl, eof_closing_unconditional _ _ _ rfl rfl⟩

/-- Claim C8: any single character that is not an identifier start, a
digit, an operator or punctuation character, a space, or a newline lexes
in isolation to exactly one `Unknown` token (consuming exactly that
character) followed by the closing `NewLine`, and the run terminates
normally. -/
theorem unknown_char_isolated (c : Char)
    (h1 : is_ident_start c = false) (h2 : is_digit c = false)
    (h3 : isOpPunct c = false) (h4 : (c == ' ') = false)
    (h5 : (c == '\n') = false) :
    lexChars [c] = [⟨.Unknown, Span.new 0 1⟩, ⟨.NewLine, Span.new 1 2⟩] := by
  have hstep : nextToken (initLexer [c]) =
      some ((⟨.Unknown, Span.new 0 1⟩ : Token),
        (⟨[], 1, [⟨.NewLine, Span.new 1 2⟩], [0], false, 0⟩ : LexState)) := by
    simp only [isOpPunct, Bool.or_eq_false_iff] at h3
    simp [nextToken, initLexer, skipWs, wsCount, scanPart, scanKind,
      h1, h2, h3, h4, h5, List.takeWhile, List.dropWhile, Span.new]
  have hrun : ∀ s : LexState, lexAux 12 s =
      (match nextToken s with
        | none => []
        | some (t, st2) => t :: lexAux 11 st2) := fun _ => rfl
  have hlen : lexChars [c] = lexAux 12 (initLexer [c]) := rfl
  rw [hlen, hrun, hstep]
  rfl

/-- Witness for claim C8 at the concrete unrecognized character '?'. -/
theorem unknown_char_isolated_witness :
    is_ident_start '?' = false ∧ is_digit '?' = false ∧ isOpPunct '?' = false ∧
    ('?' == ' ') = false ∧ ('?' == '\n') = false ∧
    lexChars ['?'] = [⟨.Unknown, Span.new 0 1⟩, ⟨.NewLine, Span.new 1 2⟩] :=
  ⟨rfl, rfl, rfl, rfl, rfl,
    unknown_char_isolated '?' rfl rfl rfl rfl rfl⟩

end Silverc
